import Mathlib

/-!
Shallow embedding of the dependency fetcher in src/scripts/download/tools.ts
and of the moproxy OpenRC init script of this repository.

Network fetches (getResource) are modeled by passing the fetched text as an
explicit argument; filesystem and iptables state are modeled explicitly.
JavaScript string operations used by the source are modeled one to one:
String.prototype.includes, String.prototype.split on the line regex, and
element 0 of String.prototype.split on the whitespace regex.
-/

/-- Boolean test that the first character list is a prefix of the second. -/
def listPrefixOf : List Char → List Char → Bool
  | [], _ => true
  | _ :: _, [] => false
  | a :: as, b :: bs => a == b && listPrefixOf as bs

/-- Boolean test that the needle occurs as a contiguous sublist of the hay. -/
def subListAnywhere (needle hay : List Char) : Bool :=
  listPrefixOf needle hay ||
    match hay with
    | [] => false
    | _ :: t => subListAnywhere needle t

/-- Model of the JavaScript test line.includes(target) used to filter checksum
manifests in tools.ts. -/
def jsIncludes (s target : String) : Bool :=
  subListAnywhere target.data s.data

/-- Model of the JavaScript test s.startsWith(pre). -/
def jsStartsWith (s pre : String) : Bool :=
  listPrefixOf pre.data s.data

/-- Split a character list at every occurrence of an optional carriage return
followed by a newline, the split regex used on checksum manifests. -/
def splitCRLF : List Char → List (List Char)
  | [] => [[]]
  | '\r' :: '\n' :: rest => [] :: splitCRLF rest
  | '\n' :: rest => [] :: splitCRLF rest
  | c :: rest =>
    match splitCRLF rest with
    | [] => [[c]]
    | l :: ls => (c :: l) :: ls

/-- Model of allChecksums.split on the line regex in tools.ts. -/
def splitLinesJS (s : String) : List String :=
  (splitCRLF s.data).map String.mk

/-- Element 0 of the JavaScript split of a string on the whitespace regex:
the longest prefix free of whitespace. -/
def jsSplitWsHead (s : String) : String :=
  String.mk (s.data.takeWhile (fun c => !c.isWhitespace))

/-- Manifest lines whose text contains the given target string, the filter
that both findChecksum and downloadKuberlr apply to a checksum manifest. -/
def matchingLines (manifest target : String) : List String :=
  (splitLinesJS manifest).filter (fun line => jsIncludes line target)

/-- findChecksum from tools.ts: split the fetched checksum manifest into lines,
keep the lines containing the executable name, error unless exactly one line
remains, and return its first whitespace-delimited token. -/
def findChecksum (allChecksums : String) (executableName : String) : Except String String :=
  let desiredChecksums := matchingLines allChecksums executableName
  if desiredChecksums.length < 1 then
    Except.error ("Couldn't find a matching SHA for [" ++ executableName ++ "] in [" ++ allChecksums ++ "]")
  else if desiredChecksums.length = 1 then
    Except.ok (jsSplitWsHead (desiredChecksums.headD ""))
  else
    Except.error ("Matched " ++ toString desiredChecksums.length ++ " hits, not exactly 1, for " ++ executableName ++ " in [" ++ allChecksums ++ "]")

inductive Platform
  | linux
  | darwin
  | win32
deriving DecidableEq, Repr

/-- Platform value as the string process.platform would hold. -/
def Platform.str : Platform → String
  | Platform.linux => "linux"
  | Platform.darwin => "darwin"
  | Platform.win32 => "win32"

inductive KubePlatform
  | linux
  | darwin
  | windows
deriving DecidableEq, Repr

/-- KubePlatform value as the string used inside URL templates. -/
def KubePlatform.str : KubePlatform → String
  | KubePlatform.linux => "linux"
  | KubePlatform.darwin => "darwin"
  | KubePlatform.windows => "windows"

inductive DependencyPlatform
  | wsl
  | linux
  | darwin
  | win32
deriving DecidableEq, Repr

/-- getKubePlatform from tools.ts. -/
def getKubePlatform : Platform → KubePlatform
  | Platform.linux => KubePlatform.linux
  | Platform.darwin => KubePlatform.darwin
  | Platform.win32 => KubePlatform.windows

/-- DownloadContext from tools.ts; the field name keeps the typo of the
source. -/
structure DownloadContext where
  dependencyPlaform : DependencyPlatform
  platform : Platform
  kubePlatform : KubePlatform
  binDir : String
  internalDir : String
deriving DecidableEq, Repr

/-- Simplified model of Node path.join on two segments. -/
def pathJoin (a b : String) : String := a ++ "/" ++ b

/-- exeName from tools.ts: append the .exe suffix exactly when the platform
string starts with win. -/
def exeName (context : DownloadContext) (name : String) : String :=
  let onWindows := jsStartsWith context.platform.str "win"
  name ++ (if onWindows then ".exe" else "")

def kuberlrVersion : String := "0.4.2"

/-- Directory name inside the kuberlr release archive, determined by the
kube platform and the requested architecture. -/
def kuberlrPlatformDir (context : DownloadContext) (arch : String) : String :=
  "kuberlr_" ++ kuberlrVersion ++ "_" ++ context.kubePlatform.str ++ "_" ++ arch

/-- Resolved download request produced by downloadKuberlr. -/
structure KuberlrRequest where
  archiveURL : String
  destPath : String
  expectedChecksum : String
  entryName : String
deriving DecidableEq, Repr

/-- downloadKuberlr from tools.ts: the checksum manifest text stands for the
fetched checksums.txt; the inline filter errors on zero matches and on more
than one match, and the request carries the first token of the single match. -/
def downloadKuberlr (context : DownloadContext) (arch : String) (checksumsText : String) :
    Except String KuberlrRequest :=
  let baseURL := "https://github.com/flavio/kuberlr/releases/download/v" ++ kuberlrVersion
  let platformDir := kuberlrPlatformDir context arch
  let archiveName := platformDir ++ (if jsStartsWith context.kubePlatform.str "win" then ".zip" else ".tar.gz")
  let allChecksums := splitLinesJS checksumsText
  let checksums := allChecksums.filter (fun line => jsIncludes line platformDir)
  match checksums.length with
  | 0 => Except.error ("Couldn't find a matching SHA for [" ++ platformDir ++ "] in [" ++ String.intercalate "," allChecksums ++ "]")
  | 1 =>
    Except.ok
      { archiveURL := baseURL ++ "/" ++ archiveName
        destPath := pathJoin context.binDir (exeName context "kuberlr")
        expectedChecksum := jsSplitWsHead (checksums.headD "")
        entryName := platformDir ++ "/" ++ exeName context "kuberlr" }
  | _ => Except.error ("Matched " ++ toString checksums.length ++ " hits, not exactly 1, for platform " ++ context.kubePlatform.str ++ " in [" ++ String.intercalate "," allChecksums ++ "]")

/-- C1: for every checksum manifest and target, findChecksum succeeds exactly
when the number of manifest lines containing the target is one, and the inline
filter of downloadKuberlr succeeds exactly when the number of manifest lines
containing the kuberlr platform directory is one; zero or multiple matches
error. -/
theorem checksum_resolution_exactly_one (manifest target : String)
    (context : DownloadContext) (arch : String) :
    ((findChecksum manifest target).isOk ↔ (matchingLines manifest target).length = 1)
    ∧ ((downloadKuberlr context arch manifest).isOk
        ↔ (matchingLines manifest (kuberlrPlatformDir context arch)).length = 1) := by
  constructor
  · simp only [findChecksum]
    rcases h : (matchingLines manifest target).length with _ | n
    · simp [h, Except.isOk, Except.toBool]
    · rcases n with _ | m
      · simp [h, Except.isOk, Except.toBool]
      · simp [h, Except.isOk, Except.toBool]
  · simp only [downloadKuberlr, matchingLines]
    rcases h : ((splitLinesJS manifest).filter
        (fun line => jsIncludes line (kuberlrPlatformDir context arch))).length with _ | n
    · simp [h, Except.isOk, Except.toBool]
    · rcases n with _ | m
      · simp [h, Except.isOk, Except.toBool]
      · simp [h, Except.isOk, Except.toBool]

/-- C5: on the manifest holding the single line abc123 followed by the target
filename, findChecksum resolves the checksum abc123; on a manifest with two
lines matching the target, it errors with the ambiguity message naming the
candidate count of two. -/
theorem findChecksum_scenario :
    findChecksum "abc123  foo-linux-amd64.tar.gz" "foo-linux-amd64.tar.gz" = Except.ok "abc123"
    ∧ findChecksum "abc123  foo-linux-amd64.tar.gz\ndef456  foo-linux-amd64.tar.gz" "foo-linux-amd64.tar.gz"
      = Except.error "Matched 2 hits, not exactly 1, for foo-linux-amd64.tar.gz in [abc123  foo-linux-amd64.tar.gz\ndef456  foo-linux-amd64.tar.gz]" := by
  exact ⟨rfl, rfl⟩

/-- C8: exeName appends the .exe suffix exactly when the platform is win32,
the only platform whose string starts with win, and returns the name unchanged
on every other platform. -/
theorem exeName_win_suffix (context : DownloadContext) (name : String) :
    (exeName context name = name ++ ".exe" ↔ context.platform = Platform.win32)
    ∧ (exeName context name = name ↔ context.platform ≠ Platform.win32) := by
  have hne : ¬ (name ++ ".exe" = name) := by
    intro h
    have hl := congrArg String.length h
    rw [String.length_append, show (".exe" : String).length = 4 from rfl] at hl
    omega
  have hne2 : ¬ (name = name ++ ".exe") := fun h => hne h.symm
  have hwl : jsStartsWith "linux" "win" = false := by decide
  have hwd : jsStartsWith "darwin" "win" = false := by decide
  have hww : jsStartsWith "win32" "win" = true := by decide
  cases hp : context.platform <;>
    simp [exeName, Platform.str, hp, hne, hne2, hwl, hwd, hww]

/-- Filesystem node at one path, as seen through lstat. -/
inductive FileNode
  | absent
  | regularFile (content : String)
  | symlink (target : String)
deriving DecidableEq, Repr

/-- Filesystem actions performed by bindKubectlToKuberlr. -/
inductive BindEffect
  | copyFile (src dst : String)
  | removePath (p : String)
  | makeSymlink (target p : String)
deriving DecidableEq, Repr

/-- bindKubectlToKuberlr from tools.ts: on Windows the kuberlr file is copied
over the kubectl path; elsewhere an lstat of the kubectl path drives repair
logic, leaving a link in place when it already points at kuberlr, deleting and
recreating it when it points elsewhere or a plain file sits there, and simply
creating it when the path is absent. The returned pair is the final node at
the kubectl path and the list of actions taken. -/
def bindKubectlToKuberlr (onWindows : Bool) (kuberlrContent : String)
    (kuberlrPath binKubectlPath : String) (binKubectl : FileNode) :
    FileNode × List BindEffect :=
  if onWindows then
    (FileNode.regularFile kuberlrContent, [BindEffect.copyFile kuberlrPath binKubectlPath])
  else
    match binKubectl with
    | FileNode.symlink target =>
      if target = "kuberlr" then
        (FileNode.symlink target, [])
      else
        (FileNode.symlink "kuberlr",
          [BindEffect.removePath binKubectlPath, BindEffect.makeSymlink "kuberlr" binKubectlPath])
    | FileNode.regularFile _ =>
      (FileNode.symlink "kuberlr",
        [BindEffect.removePath binKubectlPath, BindEffect.makeSymlink "kuberlr" binKubectlPath])
    | FileNode.absent =>
      (FileNode.symlink "kuberlr", [BindEffect.makeSymlink "kuberlr" binKubectlPath])

/-- C4: on non-Windows platforms the kubectl path always ends as a symbolic
link whose target is the literal string kuberlr; a link already pointing at
kuberlr is left in place with no action, a link pointing elsewhere is deleted
and recreated, and on Windows the kuberlr file is copied to the kubectl
path. -/
theorem bindKubectlToKuberlr_spec (content kPath bPath t : String) (node : FileNode) :
    bindKubectlToKuberlr true content kPath bPath node
      = (FileNode.regularFile content, [BindEffect.copyFile kPath bPath])
    ∧ bindKubectlToKuberlr false content kPath bPath (FileNode.symlink "kuberlr")
      = (FileNode.symlink "kuberlr", [])
    ∧ (t ≠ "kuberlr" → bindKubectlToKuberlr false content kPath bPath (FileNode.symlink t)
        = (FileNode.symlink "kuberlr",
            [BindEffect.removePath bPath, BindEffect.makeSymlink "kuberlr" bPath]))
    ∧ (bindKubectlToKuberlr false content kPath bPath node).fst = FileNode.symlink "kuberlr" := by
  refine ⟨rfl, by simp [bindKubectlToKuberlr], fun h => by simp [bindKubectlToKuberlr, h], ?_⟩
  cases node with
  | absent => rfl
  | regularFile c => rfl
  | symlink target =>
    by_cases h : target = "kuberlr"
    · simp [bindKubectlToKuberlr, h]
    · simp [bindKubectlToKuberlr, h]

/-- Concrete instance of the repair branch of bindKubectlToKuberlr: a link
pointing at another target is deleted and recreated. -/
theorem bindKubectlToKuberlr_spec_witness :
    bindKubectlToKuberlr false "c" "kp" "bp" (FileNode.symlink "other")
      = (FileNode.symlink "kuberlr",
          [BindEffect.removePath "bp", BindEffect.makeSymlink "kuberlr" "bp"]) :=
  (bindKubectlToKuberlr_spec "c" "kp" "bp" "other" FileNode.absent).2.2.1 (by decide)

/-- Environment queried by findHome: the os.homedir() result, the relevant
environment variables, and the accessibility test backing tryAccess. -/
structure HomeEnv where
  osHomedir : String
  home : Option String
  userProfile : Option String
  homeDrive : Option String
  homePath : Option String
  accessible : String → Bool

/-- JavaScript truthiness of a possibly unset environment variable: set and
not the empty string. -/
def envTruthy : Option String → Bool
  | none => false
  | some s => s != ""

/-- findHome from tools.ts: try os.homedir(), then HOME, then on Windows
USERPROFILE and the join of HOMEDRIVE with HOMEPATH, returning the first
candidate that is set and accessible and throwing when none is. -/
def findHome (onWindows : Bool) (env : HomeEnv) : Except String String :=
  if env.osHomedir != "" && env.accessible env.osHomedir then
    Except.ok env.osHomedir
  else if envTruthy env.home && env.accessible (env.home.getD "") then
    Except.ok (env.home.getD "")
  else if onWindows && (envTruthy env.userProfile && env.accessible (env.userProfile.getD "")) then
    Except.ok (env.userProfile.getD "")
  else if onWindows && (envTruthy env.homeDrive && envTruthy env.homePath)
      && env.accessible (pathJoin (env.homeDrive.getD "") (env.homePath.getD "")) then
    Except.ok (pathJoin (env.homeDrive.getD "") (env.homePath.getD ""))
  else
    Except.error "Failed to find home directory"

/-- Candidate home paths in the order findHome tries them: os.homedir() and
HOME always, then USERPROFILE and the HOMEDRIVE with HOMEPATH join only on
Windows, each included only when set (and, for the join, both parts set). -/
def homeCandidates (onWindows : Bool) (env : HomeEnv) : List String :=
  (if env.osHomedir != "" then [env.osHomedir] else [])
  ++ ((if envTruthy env.home then [env.home.getD ""] else [])
  ++ (if onWindows then
        (if envTruthy env.userProfile then [env.userProfile.getD ""] else [])
        ++ (if envTruthy env.homeDrive && envTruthy env.homePath then
              [pathJoin (env.homeDrive.getD "") (env.homePath.getD "")] else [])
      else []))

/-- C7: findHome returns the first applicable candidate that is set and
accessible, and errors exactly when no applicable candidate is accessible. -/
theorem findHome_first_accessible (onWindows : Bool) (env : HomeEnv) :
    (findHome onWindows env =
      match (homeCandidates onWindows env).find? env.accessible with
      | some p => Except.ok p
      | none => Except.error "Failed to find home directory")
    ∧ ((findHome onWindows env).isOk = false
        ↔ ∀ p ∈ homeCandidates onWindows env, env.accessible p = false) := by
  have hmain : findHome onWindows env =
      match (homeCandidates onWindows env).find? env.accessible with
      | some p => Except.ok p
      | none => Except.error "Failed to find home directory" := by
    cases honW : onWindows <;>
    cases h1 : env.osHomedir != "" <;>
    cases h2 : env.accessible env.osHomedir <;>
    cases h3 : envTruthy env.home <;>
    cases h4 : env.accessible (env.home.getD "") <;>
    cases h5 : envTruthy env.userProfile <;>
    cases h6 : env.accessible (env.userProfile.getD "") <;>
    cases h7 : envTruthy env.homeDrive <;>
    cases h8 : envTruthy env.homePath <;>
    cases h9 : env.accessible (pathJoin (env.homeDrive.getD "") (env.homePath.getD "")) <;>
    simp [findHome, homeCandidates, List.find?, h1, h2, h3, h4, h5, h6, h7, h8, h9]
  refine ⟨hmain, ?_⟩
  rw [hmain]
  rcases hf : (homeCandidates onWindows env).find? env.accessible with _ | p
  · rw [List.find?_eq_none] at hf
    constructor
    · intro _ p hp
      exact Bool.eq_false_iff.mpr (hf p hp)
    · intro _
      rfl
  · have hmem := List.mem_of_find?_eq_some hf
    have hacc := List.find?_some hf
    constructor
    · intro hcontra
      simp [Except.isOk, Except.toBool] at hcontra
    · intro hall
      rw [hall p hmem] at hacc
      simp at hacc

/-- Options passed to the download helper in tools.ts; an absent checksum
means the download is not verified. -/
structure DownloadOptions where
  expectedChecksum : Option String := none
deriving DecidableEq, Repr

/-- Resolved download request of downloadDockerBuildx. -/
structure BuildxRequest where
  url : String
  destPath : String
  options : DownloadOptions
deriving DecidableEq, Repr

def dockerBuildxVersion : String := "v0.8.2"

/-- Name of the buildx release asset for the context and the M1 switch. -/
def dockerBuildxExecutable (context : DownloadContext) (m1 : Bool) : String :=
  exeName context
    ("buildx-" ++ dockerBuildxVersion ++ "." ++ context.kubePlatform.str ++ "-"
      ++ (if m1 then "arm64" else "amd64"))

/-- downloadDockerBuildx from tools.ts: the checksum manifest text stands for
the fetched checksums.txt. The options start empty and an expected checksum is
resolved and added only when the kube platform is not darwin, because the
upstream publisher provides no checksum for darwin builds. -/
def downloadDockerBuildx (context : DownloadContext) (m1 : Bool) (checksumManifest : String) :
    Except String BuildxRequest :=
  let dockerBuildxURLBase := "https://github.com/docker/buildx/releases/download/" ++ dockerBuildxVersion
  let dockerBuildxURL := dockerBuildxURLBase ++ "/" ++ dockerBuildxExecutable context m1
  let dockerBuildxPath := pathJoin context.binDir (exeName context "docker-buildx")
  if context.kubePlatform ≠ KubePlatform.darwin then
    match findChecksum checksumManifest (dockerBuildxExecutable context m1) with
    | Except.error e => Except.error e
    | Except.ok sha =>
      Except.ok
        { url := dockerBuildxURL
          destPath := dockerBuildxPath
          options := { expectedChecksum := some sha } }
  else
    Except.ok
      { url := dockerBuildxURL
        destPath := dockerBuildxPath
        options := { expectedChecksum := none } }

/-- C6: the darwin variant of docker-buildx is downloaded with no expected
checksum and that branch never fails, while on every other kube platform a
successful request always carries a resolved expected checksum; a request
lacking a checksum arises exactly on darwin. -/
theorem dockerBuildx_darwin_skips_checksum (context : DownloadContext) (m1 : Bool)
    (checksumManifest : String) :
    (context.kubePlatform = KubePlatform.darwin →
      ∃ req, downloadDockerBuildx context m1 checksumManifest = Except.ok req
        ∧ req.options.expectedChecksum = none)
    ∧ (∀ req, downloadDockerBuildx context m1 checksumManifest = Except.ok req →
        (req.options.expectedChecksum = none ↔ context.kubePlatform = KubePlatform.darwin)) := by
  constructor
  · intro hd
    refine
      ⟨{ url := "https://github.com/docker/buildx/releases/download/" ++ dockerBuildxVersion
            ++ "/" ++ dockerBuildxExecutable context m1
         destPath := pathJoin context.binDir (exeName context "docker-buildx")
         options := { expectedChecksum := none } }, ?_, rfl⟩
    simp [downloadDockerBuildx, hd]
  · intro req hreq
    by_cases hd : context.kubePlatform = KubePlatform.darwin
    · simp [downloadDockerBuildx, hd] at hreq
      simp [← hreq, hd]
    · rcases hfc : findChecksum checksumManifest (dockerBuildxExecutable context m1) with e | sha
      · simp [downloadDockerBuildx, hd, hfc] at hreq
      · simp [downloadDockerBuildx, hd, hfc] at hreq
        simp [← hreq, hd]

/-- Concrete darwin instance of downloadDockerBuildx: the request carries no
expected checksum. -/
theorem dockerBuildx_darwin_skips_checksum_witness :
    ∃ req, downloadDockerBuildx
        { dependencyPlaform := DependencyPlatform.darwin
          platform := Platform.darwin
          kubePlatform := KubePlatform.darwin
          binDir := "bin"
          internalDir := "internal" } false ""
      = Except.ok req ∧ req.options.expectedChecksum = none :=
  (dockerBuildx_darwin_skips_checksum
    { dependencyPlaform := DependencyPlatform.darwin
      platform := Platform.darwin
      kubePlatform := KubePlatform.darwin
      binDir := "bin"
      internalDir := "internal" } false "").1 rfl

/-- Effects of downloadRancherDashboard, in the order they hit the outside
world; the tar invocation is abstracted as an extraction effect. -/
inductive DashboardEffect
  | getResource (url : String)
  | downloadFile (url dest checksum : String)
  | mkdirRecursive (dir : String)
  | extractTarball (intoDir : String)
  | removeFile (p : String)
deriving DecidableEq, Repr

def rancherDashboardVersion : String := "desktop-v2.6.3.beta.12"

def rancherDashboardURLBase : String :=
  "https://github.com/rancher-sandbox/dashboard/releases/download/" ++ rancherDashboardVersion

def rancherDashboardExecutable : String := "rancher-dashboard-desktop-embed"

def rancherDashboardURL : String :=
  rancherDashboardURLBase ++ "/" ++ rancherDashboardExecutable ++ ".tar.gz"

/-- downloadRancherDashboard from tools.ts: the sha512sum manifest is fetched
and the checksum resolved before the destination directory is checked; when
the directory exists the body returns before any download or filesystem
change, otherwise it downloads the bundle, creates the directory, extracts the
tarball into it and removes the tarball. The result is the ordered effect
list. -/
def downloadRancherDashboard (shaManifest : String) (dashboardDirAlreadyExists : Bool) :
    Except String (List DashboardEffect) :=
  match findChecksum shaManifest rancherDashboardExecutable with
  | Except.error e => Except.error e
  | Except.ok sha =>
    if dashboardDirAlreadyExists then
      Except.ok [DashboardEffect.getResource (rancherDashboardURL ++ ".sha512sum")]
    else
      Except.ok
        [DashboardEffect.getResource (rancherDashboardURL ++ ".sha512sum"),
         DashboardEffect.downloadFile rancherDashboardURL
           (pathJoin "resources" "rancher-dashboard.tgz") sha,
         DashboardEffect.mkdirRecursive (pathJoin "resources" "rancher-dashboard"),
         DashboardEffect.extractTarball (pathJoin "resources" "rancher-dashboard"),
         DashboardEffect.removeFile (pathJoin "resources" "rancher-dashboard.tgz")]

/-- C3 counterexample: with the destination directory already present the run
is not skipped entirely; the sha512sum manifest is still fetched and resolved
first, so on a manifest with no matching line the function errors even though
the directory exists, instead of being a successful no-op. -/
theorem rancherDashboard_skip_not_noop :
    downloadRancherDashboard "" true
      = Except.error "Couldn't find a matching SHA for [rancher-dashboard-desktop-embed] in []" := by
  rfl

/-- C3 amended: when the destination directory already exists and the checksum
manifest resolves, downloadRancherDashboard downloads no bundle and changes no
filesystem state; its only effect is the checksum manifest fetch, so a re-run
with the directory present leaves the filesystem untouched. -/
theorem rancherDashboard_exists_skips_download (shaManifest sha : String)
    (h : findChecksum shaManifest rancherDashboardExecutable = Except.ok sha) :
    downloadRancherDashboard shaManifest true
      = Except.ok [DashboardEffect.getResource (rancherDashboardURL ++ ".sha512sum")] := by
  simp [downloadRancherDashboard, h]

/-- Concrete instance: with the directory present and a resolvable manifest the
only effect is the manifest fetch. -/
theorem rancherDashboard_exists_skips_download_witness :
    downloadRancherDashboard "abc  rancher-dashboard-desktop-embed.tar.gz" true
      = Except.ok [DashboardEffect.getResource (rancherDashboardURL ++ ".sha512sum")] :=
  rancherDashboard_exists_skips_download "abc  rancher-dashboard-desktop-embed.tar.gz" "abc" rfl

/-- Model of String.prototype.trim from the managed kubectl version text. -/
def jsTrim (s : String) : String :=
  String.mk (((s.data.dropWhile Char.isWhitespace).reverse.dropWhile Char.isWhitespace).reverse)

/-- Replace of one leading v in the version string of tools.ts. -/
def stripLeadingV (s : String) : String :=
  match s.data with
  | 'v' :: rest => String.mk rest
  | _ => s

/-- Managed kubectl download planned by downloadKuberlrAndKubectl. -/
structure ManagedKubectl where
  url : String
  sha : String
  destPath : String
  arch : String
deriving DecidableEq, Repr

/-- Result of downloadKuberlrAndKubectl: the resolved kuberlr request, the
kubectl alias path bound next to it by bindKubectlToKuberlr, and the managed
kubectl download that happens only when the context platform equals the host
platform. -/
structure KuberlrKubectlPlan where
  kuberlrRequest : KuberlrRequest
  kubectlAliasPath : String
  managedKubectl : Option ManagedKubectl
deriving DecidableEq, Repr

/-- downloadKuberlrAndKubectl from tools.ts: kuberlr is requested with the
literal architecture amd64 (the source keeps the x86_64 build even on
aarch64), the kubectl alias path sits next to it, and when the context
platform equals the host platform the managed kubectl is downloaded with the
architecture chosen by the M1 environment variable. Fetched resources (the
kuberlr checksum manifest, the stable version text and the kubectl sha256
text) and the home environment of findHome are passed in explicitly. -/
def downloadKuberlrAndKubectl (context : DownloadContext) (m1 : Bool)
    (hostPlatform : Platform) (kuberlrChecksums stableVersionText kubectlShaText : String)
    (homeEnv : HomeEnv) : Except String KuberlrKubectlPlan :=
  match downloadKuberlr context "amd64" kuberlrChecksums with
  | Except.error e => Except.error e
  | Except.ok kuberlrReq =>
    let arch := if m1 then "arm64" else "amd64"
    let kubectlAliasPath := pathJoin context.binDir (exeName context "kubectl")
    if context.platform = hostPlatform then
      let kubeVersion := jsTrim stableVersionText
      let kubectlURL := "https://dl.k8s.io/" ++ kubeVersion ++ "/bin/"
        ++ context.kubePlatform.str ++ "/" ++ arch ++ "/" ++ exeName context "kubectl"
      match findHome (jsStartsWith context.platform.str "win") homeEnv with
      | Except.error e => Except.error e
      | Except.ok homeDir =>
        let kuberlrDir := pathJoin (pathJoin homeDir ".kuberlr")
          (context.kubePlatform.str ++ "-" ++ arch)
        Except.ok
          { kuberlrRequest := kuberlrReq
            kubectlAliasPath := kubectlAliasPath
            managedKubectl := some
              { url := kubectlURL
                sha := kubectlShaText
                destPath := pathJoin kuberlrDir (exeName context ("kubectl" ++ stripLeadingV kubeVersion))
                arch := arch } }
    else
      Except.ok
        { kuberlrRequest := kuberlrReq
          kubectlAliasPath := kubectlAliasPath
          managedKubectl := none }

/-- C9: every successful downloadKuberlrAndKubectl carries exactly the kuberlr
request resolved for the literal architecture amd64, whatever the M1 variable
and host architecture say, while the managed kubectl planned alongside uses
arm64 exactly when M1 is set. -/
theorem kuberlr_always_amd64 (context : DownloadContext) (m1 : Bool)
    (hostPlatform : Platform) (kuberlrChecksums stableVersionText kubectlShaText : String)
    (homeEnv : HomeEnv) (plan : KuberlrKubectlPlan)
    (h : downloadKuberlrAndKubectl context m1 hostPlatform kuberlrChecksums
          stableVersionText kubectlShaText homeEnv = Except.ok plan) :
    downloadKuberlr context "amd64" kuberlrChecksums = Except.ok plan.kuberlrRequest
    ∧ (∀ k, plan.managedKubectl = some k → k.arch = if m1 then "arm64" else "amd64") := by
  rcases hk : downloadKuberlr context "amd64" kuberlrChecksums with e | req
  · simp [downloadKuberlrAndKubectl, hk] at h
  · by_cases hp : context.platform = hostPlatform
    · simp only [downloadKuberlrAndKubectl, hk] at h
      rw [if_pos hp] at h
      rcases hh : findHome (jsStartsWith context.platform.str "win") homeEnv with e | homeDir
      · rw [hh] at h
        simp at h
      · rw [hh] at h
        simp only [Except.ok.injEq] at h
        subst h
        constructor
        · simp [hk]
        · intro k hkk
          simp at hkk
          subst hkk
          rfl
    · simp only [downloadKuberlrAndKubectl, hk] at h
      rw [if_neg hp] at h
      simp only [Except.ok.injEq] at h
      subst h
      constructor
      · simp [hk]
      · intro k hkk
        simp at hkk

def c9Context : DownloadContext :=
  { dependencyPlaform := DependencyPlatform.linux
    platform := Platform.linux
    kubePlatform := KubePlatform.linux
    binDir := "bin"
    internalDir := "internal" }

def c9HomeEnv : HomeEnv :=
  { osHomedir := "/home/u"
    home := none
    userProfile := none
    homeDrive := none
    homePath := none
    accessible := fun _ => true }

def c9Manifest : String := "abc  kuberlr_0.4.2_linux_amd64.tar.gz"

def c9Plan : KuberlrKubectlPlan :=
  { kuberlrRequest :=
      { archiveURL := "https://github.com/flavio/kuberlr/releases/download/v0.4.2/kuberlr_0.4.2_linux_amd64.tar.gz"
        destPath := "bin/kuberlr"
        expectedChecksum := "abc"
        entryName := "kuberlr_0.4.2_linux_amd64/kuberlr" }
    kubectlAliasPath := "bin/kubectl"
    managedKubectl := some
      { url := "https://dl.k8s.io/v1.24.0/bin/linux/arm64/kubectl"
        sha := "deadbeef"
        destPath := "/home/u/.kuberlr/linux-arm64/kubectl1.24.0"
        arch := "arm64" } }

/-- Concrete run with the M1 variable set: kuberlr is still requested as
amd64 while the managed kubectl uses arm64. -/
theorem kuberlr_always_amd64_witness :
    downloadKuberlr c9Context "amd64" c9Manifest = Except.ok c9Plan.kuberlrRequest
    ∧ (∀ k, c9Plan.managedKubectl = some k → k.arch = if true then "arm64" else "amd64") :=
  kuberlr_always_amd64 c9Context true Platform.linux c9Manifest "v1.24.0" "deadbeef"
    c9HomeEnv c9Plan rfl

/-- Outcomes of the ten top-level tool fetches launched together by
downloadDependencies, one field per entry of the Promise.all list. -/
structure ToolOutcomes where
  kuberlrAndKubectl : Except String Unit
  helm : Except String Unit
  dockerCLI : Except String Unit
  dockerBuildx : Except String Unit
  dockerCompose : Except String Unit
  trivy : Except String Unit
  steve : Except String Unit
  rancherDashboard : Except String Unit
  dockerProvidedCredHelpers : Except String Unit
  ecrCredHelper : Except String Unit

/-- Aggregate join of Promise.all over unit tasks: it succeeds only when every
task succeeds and fails when any task fails; the error kept stands for the
first rejection, with list order standing in for settlement order. -/
def promiseAll : List (Except String Unit) → Except String Unit
  | [] => Except.ok ()
  | Except.ok _ :: rest => promiseAll rest
  | Except.error e :: _ => Except.error e

/-- downloadDependencies from tools.ts: the ten top-level tool fetches are all
started and joined by a single Promise.all; the outcome of each fetch is a
parameter, and no fetch is ever retried or restarted. -/
def downloadDependencies (t : ToolOutcomes) : Except String Unit :=
  promiseAll
    [t.kuberlrAndKubectl, t.helm, t.dockerCLI, t.dockerBuildx, t.dockerCompose,
     t.trivy, t.steve, t.rancherDashboard, t.dockerProvidedCredHelpers, t.ecrCredHelper]

/-- Computation rule: a successful result reports isOk. -/
theorem except_isOk_ok {e a : Type} (x : a) : (Except.ok x : Except e a).isOk = true := rfl

/-- Computation rule: a failed result does not report isOk. -/
theorem except_isOk_error {e a : Type} (m : e) : (Except.error m : Except e a).isOk = false := rfl

/-- Promise.all on unit tasks succeeds exactly when every task succeeds. -/
theorem promiseAll_ok_iff (l : List (Except String Unit)) :
    (promiseAll l).isOk = true ↔ ∀ x ∈ l, x.isOk = true := by
  induction l with
  | nil => simp [promiseAll, except_isOk_ok]
  | cons x rest ih =>
    cases x with
    | ok v => simp [promiseAll, ih, except_isOk_ok]
    | error e => simp [promiseAll, except_isOk_error]

/-- C2: the aggregate downloadDependencies succeeds exactly when all ten tool
fetches succeed, so any single failure fails the whole operation and no
partial success exists. -/
theorem downloadDependencies_all_or_nothing (t : ToolOutcomes) :
    (downloadDependencies t).isOk = true
      ↔ (t.kuberlrAndKubectl.isOk = true ∧ t.helm.isOk = true ∧ t.dockerCLI.isOk = true
          ∧ t.dockerBuildx.isOk = true ∧ t.dockerCompose.isOk = true ∧ t.trivy.isOk = true
          ∧ t.steve.isOk = true ∧ t.rancherDashboard.isOk = true
          ∧ t.dockerProvidedCredHelpers.isOk = true ∧ t.ecrCredHelper.isOk = true) := by
  rw [downloadDependencies, promiseAll_ok_iff]
  simp

namespace Moproxy

/-- iptables check from iptables_cmd: the rule is present in the chain. -/
def checkRule (chain : List String) (rule : String) : Bool :=
  chain.contains rule

/-- iptables append: the rule is added at the end of the chain. -/
def appendRule (chain : List String) (rule : String) : List String :=
  chain ++ [rule]

/-- iptables delete: the first occurrence of the rule is removed. -/
def deleteRule (chain : List String) (rule : String) : List String :=
  chain.erase rule

/-- add_rule_to_chain from the init script: append the REDIRECT rule only when
the check does not find it. -/
def add_rule_to_chain (chain : List String) (rule : String) : List String :=
  if checkRule chain rule then chain else appendRule chain rule

/-- remove_rule_from_chain from the init script: delete the REDIRECT rule
while the check still finds it. -/
def remove_rule_from_chain (chain : List String) (rule : String) : List String :=
  if h : checkRule chain rule then
    remove_rule_from_chain (deleteRule chain rule) rule
  else
    chain
termination_by chain.length
decreasing_by
  have hm : rule ∈ chain := by
    simpa [checkRule] using h
  have h1 := List.length_erase_of_mem hm
  have h2 := List.length_pos_of_mem hm
  simp only [deleteRule]
  omega

/-- State of the nat table: the OUTPUT and PREROUTING chains touched by the
init script. -/
structure NatTable where
  OUTPUT : List String
  PREROUTING : List String
deriving DecidableEq, Repr

/-- enable from the init script: add the REDIRECT rule to both chains. -/
def enable (t : NatTable) (rule : String) : NatTable :=
  { OUTPUT := add_rule_to_chain t.OUTPUT rule
    PREROUTING := add_rule_to_chain t.PREROUTING rule }

/-- disable from the init script: remove the REDIRECT rule from both chains. -/
def disable (t : NatTable) (rule : String) : NatTable :=
  { OUTPUT := remove_rule_from_chain t.OUTPUT rule
    PREROUTING := remove_rule_from_chain t.PREROUTING rule }

/-- Adding the rule leaves max of the old multiplicity and one. -/
theorem add_rule_count (chain : List String) (rule : String) :
    (add_rule_to_chain chain rule).count rule = max (chain.count rule) 1 := by
  by_cases h : checkRule chain rule
  · have hm : rule ∈ chain := by simpa [checkRule] using h
    have hpos : 0 < chain.count rule := List.count_pos_iff.mpr hm
    simp only [add_rule_to_chain, h, if_true]
    exact (Nat.max_eq_left hpos).symm
  · have hm : rule ∉ chain := by simpa [checkRule] using h
    have h0 : chain.count rule = 0 := List.count_eq_zero.mpr hm
    simp [add_rule_to_chain, appendRule, h, h0]

/-- Adding the rule twice is the same as adding it once. -/
theorem add_rule_idem (chain : List String) (rule : String) :
    add_rule_to_chain (add_rule_to_chain chain rule) rule = add_rule_to_chain chain rule := by
  by_cases h : checkRule chain rule
  · simp [add_rule_to_chain, h]
  · have h2 : checkRule (appendRule chain rule) rule = true := by
      simp [checkRule, appendRule]
    simp [add_rule_to_chain, h, h2]

/-- Removal drives the multiplicity of the rule to zero. -/
theorem remove_rule_count_self (chain : List String) (rule : String) :
    (remove_rule_from_chain chain rule).count rule = 0 := by
  by_cases h : checkRule chain rule
  · rw [remove_rule_from_chain, dif_pos h]
    exact remove_rule_count_self (deleteRule chain rule) rule
  · rw [remove_rule_from_chain, dif_neg h]
    have hm : rule ∉ chain := by simpa [checkRule] using h
    exact List.count_eq_zero.mpr hm
termination_by chain.length
decreasing_by
  have hm : rule ∈ chain := by
    simpa [checkRule] using h
  have h1 := List.length_erase_of_mem hm
  have h2 := List.length_pos_of_mem hm
  simp only [deleteRule]
  omega

/-- Removal never touches the multiplicity of a different rule. -/
theorem remove_rule_count_other (chain : List String) (rule other : String)
    (hne : other ≠ rule) :
    (remove_rule_from_chain chain rule).count other = chain.count other := by
  by_cases h : checkRule chain rule
  · rw [remove_rule_from_chain, dif_pos h]
    rw [remove_rule_count_other (deleteRule chain rule) rule other hne]
    simp [deleteRule, List.count_erase_of_ne hne]
  · rw [remove_rule_from_chain, dif_neg h]
termination_by chain.length
decreasing_by
  have hm : rule ∈ chain := by
    simpa [checkRule] using h
  have h1 := List.length_erase_of_mem hm
  have h2 := List.length_pos_of_mem hm
  simp only [deleteRule]
  omega

/-- C10: enable adds the REDIRECT rule to each chain only when absent, so its
multiplicity becomes the max of the old multiplicity and one and repeated
enable calls change nothing more, while disable leaves zero copies in each
chain no matter how many duplicates existed, without touching other rules. -/
theorem enable_disable_rule_counts (t : NatTable) (rule other : String) :
    ((enable t rule).OUTPUT.count rule = max (t.OUTPUT.count rule) 1
      ∧ (enable t rule).PREROUTING.count rule = max (t.PREROUTING.count rule) 1)
    ∧ enable (enable t rule) rule = enable t rule
    ∧ ((disable t rule).OUTPUT.count rule = 0 ∧ (disable t rule).PREROUTING.count rule = 0)
    ∧ (other ≠ rule →
        (disable t rule).OUTPUT.count other = t.OUTPUT.count other
        ∧ (disable t rule).PREROUTING.count other = t.PREROUTING.count other) := by
  refine ⟨⟨add_rule_count t.OUTPUT rule, add_rule_count t.PREROUTING rule⟩, ?_, ?_, ?_⟩
  · simp [enable, add_rule_idem]
  · exact ⟨remove_rule_count_self t.OUTPUT rule, remove_rule_count_self t.PREROUTING rule⟩
  · intro hne
    exact ⟨remove_rule_count_other t.OUTPUT rule other hne,
      remove_rule_count_other t.PREROUTING rule other hne⟩

/-- Concrete instance: disabling on chains holding duplicate copies deletes
every copy and keeps the other rules. -/
theorem enable_disable_rule_counts_witness :
    (disable { OUTPUT := ["r", "x", "r"], PREROUTING := ["r"] } "r").OUTPUT.count "x"
        = (NatTable.OUTPUT { OUTPUT := ["r", "x", "r"], PREROUTING := ["r"] }).count "x"
    ∧ (disable { OUTPUT := ["r", "x", "r"], PREROUTING := ["r"] } "r").PREROUTING.count "x"
        = (NatTable.PREROUTING { OUTPUT := ["r", "x", "r"], PREROUTING := ["r"] }).count "x" :=
  (enable_disable_rule_counts { OUTPUT := ["r", "x", "r"], PREROUTING := ["r"] } "r" "x").2.2.2
    (by decide)

end Moproxy
